import Mathlib

/-!
Verification of the banking ledger engine.

The engine (`BankSystem` in `app.py`) stores accounts and an append-only
transaction log in a relational store and exposes deposit, withdraw,
transfer and history operations.  The embedding below models the store as
an explicit state: the list of account rows (the `accounts` table, whose
`account_number` column is UNIQUE), the list of transaction rows (the
`transactions` table) and a counter supplying strictly increasing
timestamps.  Monetary amounts are modelled as exact rationals.  Each
engine method is a function from a state to a `Bool × BankState` pair,
mirroring the Python methods that return a success flag and mutate the
store; every failure path returns the state unchanged, matching the
rollback/early-return structure of the source.  The HTTP handlers, which
turn the boolean outcomes into typed errors, are modelled as the
`*Endpoint` functions.
-/

/-- A row of the `accounts` table: `account_number`, `account_holder`,
`balance`.  `created_at` plays no role in any claim and is omitted. -/
structure Account where
  number : String
  holder : String
  balance : ℚ
deriving DecidableEq

/-- The `transaction_type` column: one of `DEPOSIT`, `WITHDRAWAL`, `TRANSFER`. -/
inductive TxType where
  | DEPOSIT
  | WITHDRAWAL
  | TRANSFER
deriving DecidableEq

/-- A row of the `transactions` table. -/
structure Transaction where
  from_account : Option String
  to_account : Option String
  transaction_type : TxType
  amount : ℚ
  description : String
  timestamp : Nat
deriving DecidableEq

/-- The whole store: account rows, transaction rows, and the timestamp
counter (`CURRENT_TIMESTAMP` modelled as a strictly increasing clock). -/
structure BankState where
  accounts : List Account
  transactions : List Transaction
  nextTs : Nat
deriving DecidableEq

/-- `SELECT ... FROM accounts WHERE account_number = ?` (first matching row). -/
def getAccount (st : BankState) (acc : String) : Option Account :=
  st.accounts.find? (fun a => a.number == acc)

/-- `SELECT balance FROM accounts WHERE account_number = ?`. -/
def getBalance (st : BankState) (acc : String) : Option ℚ :=
  (getAccount st acc).map Account.balance

/-- `UPDATE accounts SET balance = ? WHERE account_number = ?`. -/
def setBalance (st : BankState) (acc : String) (b : ℚ) : BankState :=
  let f : Account → Account := fun a => if a.number == acc then { a with balance := b } else a
  { st with accounts := st.accounts.map f }

/-- `UPDATE accounts SET balance = balance + ? WHERE account_number = ?`. -/
def adjustBalance (st : BankState) (acc : String) (delta : ℚ) : BankState :=
  let f : Account → Account :=
    fun a => if a.number == acc then { a with balance := a.balance + delta } else a
  { st with accounts := st.accounts.map f }

/-- `INSERT INTO transactions (...) VALUES (...)`, stamping the row with the
current clock value. -/
def appendTx (st : BankState) (src dst : Option String) (ty : TxType)
    (amount : ℚ) (descr : String) : BankState :=
  { st with
    transactions := st.transactions ++ [⟨src, dst, ty, amount, descr, st.nextTs⟩]
    nextTs := st.nextTs + 1 }

/-- `BankSystem.create_account`: the INSERT succeeds unless the UNIQUE
constraint on `account_number` fires (`IntegrityError` → `False`). -/
def create_account (st : BankState) (number holder : String) (initial : ℚ) :
    Bool × BankState :=
  if st.accounts.any (fun a => a.number == number) then (false, st)
  else (true, { st with accounts := st.accounts ++ [⟨number, holder, initial⟩] })

/-- `BankSystem.deposit`: look the balance up, return `False` when the
account is missing, otherwise write `current + amount` and insert one
`DEPOSIT` row with `to_account` set and `from_account` NULL. -/
def deposit (st : BankState) (acc : String) (amount : ℚ) (descr : String) :
    Bool × BankState :=
  match getBalance st acc with
  | none => (false, st)
  | some cur =>
      (true, appendTx (setBalance st acc (cur + amount)) none (some acc)
        TxType.DEPOSIT amount descr)

/-- `BankSystem.withdraw`: return `False` when the account is missing or
`current_balance < amount`; otherwise write `current - amount` and insert
one `WITHDRAWAL` row with `from_account` set and `to_account` NULL. -/
def withdraw (st : BankState) (acc : String) (amount : ℚ) (descr : String) :
    Bool × BankState :=
  match getBalance st acc with
  | none => (false, st)
  | some cur =>
      if cur < amount then (false, st)
      else
        (true, appendTx (setBalance st acc (cur - amount)) (some acc) none
          TxType.WITHDRAWAL amount descr)

/-- `BankSystem.transfer`: fetch the rows whose `account_number` is `IN
(from, to)`; roll back unless exactly two rows come back; look the source
balance up (a miss would raise `KeyError`, caught by the bare `except` →
`False` after rollback); roll back on `from_balance < amount`; otherwise
debit, credit, and insert one `TRANSFER` row inside the same transaction. -/
def transfer (st : BankState) (src dst : String) (amount : ℚ) (descr : String) :
    Bool × BankState :=
  let sel := st.accounts.filter (fun a => a.number == src || a.number == dst)
  if sel.length = 2 then
    match getBalance st src with
    | none => (false, st)
    | some srcBal =>
        if srcBal < amount then (false, st)
        else
          (true, appendTx (adjustBalance (adjustBalance st src (-amount)) dst amount)
            (some src) (some dst) TxType.TRANSFER amount descr)
  else (false, st)

/-- `BankSystem.get_transaction_history`: rows where the account appears as
`from_account` OR `to_account`, `ORDER BY timestamp DESC`, `LIMIT ?`. -/
def get_transaction_history (st : BankState) (acc : String) (limit : Nat) :
    List Transaction :=
  ((st.transactions.filter
      (fun t => t.from_account == some acc || t.to_account == some acc)).mergeSort
    (fun a b => b.timestamp ≤ a.timestamp)).take limit

/-- Typed outcomes produced by the HTTP layer from the engine's boolean
results: 404 account-not-found, 400 insufficient-funds (carrying the
current balance used in the message), 400 same-account, generic failure. -/
inductive ApiError where
  | accountNotFound
  | insufficientFunds (balance : ℚ)
  | sameAccount
  | operationFailed
deriving DecidableEq

/-- The `/accounts/{n}/deposit` handler: 404 when the account is missing,
otherwise call the engine and report the re-read balance on success. -/
def depositEndpoint (st : BankState) (acc : String) (amount : ℚ) (descr : String) :
    Except ApiError ℚ × BankState :=
  match getAccount st acc with
  | none => (Except.error ApiError.accountNotFound, st)
  | some _ =>
      let r := deposit st acc amount descr
      if r.1 then
        match getBalance r.2 acc with
        | some b => (Except.ok b, r.2)
        | none => (Except.error ApiError.operationFailed, r.2)
      else (Except.error ApiError.operationFailed, r.2)

/-- The `/accounts/{n}/withdraw` handler: 404 when the account is missing;
on engine failure it re-checks `current_balance < amount` to report
insufficient funds carrying the current balance. -/
def withdrawEndpoint (st : BankState) (acc : String) (amount : ℚ) (descr : String) :
    Except ApiError ℚ × BankState :=
  match getAccount st acc with
  | none => (Except.error ApiError.accountNotFound, st)
  | some a =>
      let r := withdraw st acc amount descr
      if r.1 then
        match getBalance r.2 acc with
        | some b => (Except.ok b, r.2)
        | none => (Except.error ApiError.operationFailed, r.2)
      else
        if a.balance < amount then
          (Except.error (ApiError.insufficientFunds a.balance), r.2)
        else (Except.error ApiError.operationFailed, r.2)

/-- The `/transfer` handler: reject `from == to`, 404 when either account is
missing, call the engine, report both re-read balances on success, and on
engine failure re-check the source balance for insufficient funds. -/
def transferEndpoint (st : BankState) (src dst : String) (amount : ℚ)
    (descr : String) : Except ApiError (ℚ × ℚ) × BankState :=
  if src == dst then (Except.error ApiError.sameAccount, st)
  else
    match getAccount st src with
    | none => (Except.error ApiError.accountNotFound, st)
    | some aFrom =>
        match getAccount st dst with
        | none => (Except.error ApiError.accountNotFound, st)
        | some _ =>
            let r := transfer st src dst amount descr
            if r.1 then
              match getBalance r.2 src, getBalance r.2 dst with
              | some b1, some b2 => (Except.ok (b1, b2), r.2)
              | _, _ => (Except.error ApiError.operationFailed, r.2)
            else
              if aFrom.balance < amount then
                (Except.error (ApiError.insufficientFunds aFrom.balance), r.2)
              else (Except.error ApiError.operationFailed, r.2)

/-- One core mutating operation, used to talk about operation sequences. -/
inductive Op where
  | create (number holder : String) (initial : ℚ)
  | dep (acc : String) (amount : ℚ) (descr : String)
  | wd (acc : String) (amount : ℚ) (descr : String)
  | xfer (src dst : String) (amount : ℚ) (descr : String)

/-- Apply one operation to the store, keeping the resulting state. -/
def applyOp (st : BankState) : Op → BankState
  | Op.create n h i => (create_account st n h i).2
  | Op.dep a amt d => (deposit st a amt d).2
  | Op.wd a amt d => (withdraw st a amt d).2
  | Op.xfer s t amt d => (transfer st s t amt d).2

/-- Run a sequence of operations. -/
def run (st : BankState) (ops : List Op) : BankState := ops.foldl applyOp st

/-- The argument domains of the spec's operation signatures: amounts are
strictly positive, initial balances non-negative (both enforced by the
calling layer's field validation). -/
def ValidOp : Op → Prop
  | Op.create _ _ i => 0 ≤ i
  | Op.dep _ amt _ => 0 < amt
  | Op.wd _ amt _ => 0 < amt
  | Op.xfer _ _ amt _ => 0 < amt

/-- The operation is a transfer. -/
def IsTransferOp : Op → Prop
  | Op.xfer _ _ _ _ => True
  | _ => False

/-- The UNIQUE NOT NULL constraint on `accounts.account_number`. -/
def UniqueNumbers (st : BankState) : Prop :=
  (st.accounts.map Account.number).Nodup

/-- Every account row has a non-negative balance. -/
def NonnegBalances (st : BankState) : Prop :=
  ∀ a ∈ st.accounts, 0 ≤ a.balance

/-- The sum of all account balances. -/
def totalBalance (st : BankState) : ℚ :=
  (st.accounts.map Account.balance).sum

/-- A concrete two-account store (the spec's scenario accounts `ACC001`
with 1000.00 and `ACC002` with 500.00), used to instantiate theorems. -/
def demoState : BankState :=
  ⟨[⟨"ACC001", "Alice", 1000⟩, ⟨"ACC002", "Bob", 500⟩], [], 0⟩

/-- A store with one account and a small transaction log, used to
instantiate the history theorems. -/
def demoLog : BankState :=
  ⟨[⟨"ACC001", "Alice", 100⟩],
   [⟨some "ACC001", none, TxType.WITHDRAWAL, 10, "w", 0⟩,
    ⟨none, some "ACC001", TxType.DEPOSIT, 20, "d", 1⟩,
    ⟨some "ACC009", some "ACC008", TxType.TRANSFER, 5, "t", 2⟩], 3⟩

deriving instance DecidableEq for Except

/-! ### Basic lemmas about row lookup and row update -/

lemma getBalance_eq_map (st : BankState) (acc : String) :
    getBalance st acc = (getAccount st acc).map Account.balance := rfl

lemma getAccount_eq_none_iff (st : BankState) (acc : String) :
    getAccount st acc = none ↔ ∀ a ∈ st.accounts, a.number ≠ acc := by
  simp [getAccount, List.find?_eq_none]

lemma getBalance_eq_none_iff (st : BankState) (acc : String) :
    getBalance st acc = none ↔ ∀ a ∈ st.accounts, a.number ≠ acc := by
  rw [getBalance_eq_map, Option.map_eq_none']
  exact getAccount_eq_none_iff st acc

lemma getAccount_mem {st : BankState} {acc : String} {a : Account}
    (h : getAccount st acc = some a) : a ∈ st.accounts ∧ a.number = acc := by
  refine ⟨List.mem_of_find?_eq_some h, ?_⟩
  have := List.find?_some h
  simpa using this

lemma getBalance_some {st : BankState} {acc : String} {b : ℚ}
    (h : getBalance st acc = some b) :
    ∃ a ∈ st.accounts, a.number = acc ∧ a.balance = b := by
  rw [getBalance_eq_map] at h
  obtain ⟨a, ha, hb⟩ := Option.map_eq_some'.mp h
  exact ⟨a, (getAccount_mem ha).1, (getAccount_mem ha).2, hb⟩

/-- With unique account numbers, `find?` retrieves exactly the member row. -/
lemma find?_of_mem_nodup {l : List Account} {a : Account}
    (hnd : (l.map Account.number).Nodup) (ha : a ∈ l) :
    l.find? (fun x => x.number == a.number) = some a := by
  induction l with
  | nil => cases ha
  | cons b t ih =>
      rcases List.mem_cons.mp ha with rfl | hat
      · simp [List.find?_cons]
      · rw [List.map_cons, List.nodup_cons] at hnd
        have hnum : b.number ≠ a.number := by
          intro hEq
          have : a.number ∈ t.map Account.number := List.mem_map_of_mem _ hat
          exact hnd.1 (hEq ▸ this)
        simp [List.find?_cons, hnum, ih hnd.2 hat]

lemma getAccount_of_mem {st : BankState} {a : Account}
    (hnd : UniqueNumbers st) (ha : a ∈ st.accounts) :
    getAccount st a.number = some a :=
  find?_of_mem_nodup hnd ha

lemma getBalance_of_mem {st : BankState} {a : Account}
    (hnd : UniqueNumbers st) (ha : a ∈ st.accounts) :
    getBalance st a.number = some a.balance := by
  rw [getBalance_eq_map, getAccount_of_mem hnd ha, Option.map_some']

/-- With unique numbers, every row whose number is looked up carries the
looked-up balance. -/
lemma balance_eq_of_mem {st : BankState} {a : Account} {b : ℚ}
    (hnd : UniqueNumbers st) (ha : a ∈ st.accounts)
    (h : getBalance st a.number = some b) : a.balance = b := by
  have := getBalance_of_mem hnd ha
  rw [this] at h
  exact Option.some_injective _ h

lemma accounts_appendTx (st : BankState) (src dst : Option String) (ty : TxType)
    (amount : ℚ) (descr : String) :
    (appendTx st src dst ty amount descr).accounts = st.accounts := rfl

lemma getBalance_appendTx (st : BankState) (src dst : Option String) (ty : TxType)
    (amount : ℚ) (descr : String) (acc : String) :
    getBalance (appendTx st src dst ty amount descr) acc = getBalance st acc := rfl

lemma transactions_appendTx (st : BankState) (src dst : Option String) (ty : TxType)
    (amount : ℚ) (descr : String) :
    (appendTx st src dst ty amount descr).transactions
      = st.transactions ++ [⟨src, dst, ty, amount, descr, st.nextTs⟩] := rfl

lemma transactions_setBalance (st : BankState) (acc : String) (b : ℚ) :
    (setBalance st acc b).transactions = st.transactions := rfl

lemma transactions_adjustBalance (st : BankState) (acc : String) (delta : ℚ) :
    (adjustBalance st acc delta).transactions = st.transactions := rfl

lemma map_number_setBalance (st : BankState) (acc : String) (b : ℚ) :
    (setBalance st acc b).accounts.map Account.number
      = st.accounts.map Account.number := by
  simp only [setBalance, List.map_map]
  refine List.map_congr_left ?_
  intro a _
  by_cases h : a.number = acc <;> simp [h]

lemma map_number_adjustBalance (st : BankState) (acc : String) (delta : ℚ) :
    (adjustBalance st acc delta).accounts.map Account.number
      = st.accounts.map Account.number := by
  simp only [adjustBalance, List.map_map]
  refine List.map_congr_left ?_
  intro a _
  by_cases h : a.number = acc <;> simp [h]

/-! ### The row count of the `IN (from, to)` query -/

lemma countP_orB {src dst : String} (l : List Account) (h : src ≠ dst) :
    l.countP (fun a => a.number == src || a.number == dst)
      = l.countP (fun a => a.number == src) + l.countP (fun a => a.number == dst) := by
  induction l with
  | nil => simp
  | cons a t ih =>
      by_cases hs : a.number = src
      · have hd : a.number ≠ dst := fun hEq => h (hs ▸ hEq)
        simp [List.countP_cons, hs, hd, ih, h, Ne.symm h]
        omega
      · by_cases hd : a.number = dst
        · simp [List.countP_cons, hs, hd, ih, h, Ne.symm h]
          omega
        · simp [List.countP_cons, hs, hd, ih]

lemma countP_number_le_one {st : BankState} (hnd : UniqueNumbers st) (x : String) :
    st.accounts.countP (fun a => a.number == x) ≤ 1 := by
  have hc : st.accounts.countP (fun a => a.number == x)
      = (st.accounts.map Account.number).count x := by
    rw [List.count, List.countP_map]
    rfl
  rw [hc]
  exact List.nodup_iff_count_le_one.mp hnd x

lemma countP_number_pos_iff (st : BankState) (x : String) :
    0 < st.accounts.countP (fun a => a.number == x) ↔ (getBalance st x).isSome := by
  rw [List.countP_pos_iff]
  constructor
  · rintro ⟨a, ha, hx⟩
    have hx' : a.number = x := by simpa using hx
    rcases hfind : getAccount st x with _ | b
    · rw [getAccount_eq_none_iff] at hfind
      exact absurd hx' (hfind a ha)
    · simp [getBalance_eq_map, hfind]
  · intro h
    rcases hfind : getAccount st x with _ | b
    · rw [getBalance_eq_map, hfind] at h
      simp at h
    · obtain ⟨hb, hbx⟩ := getAccount_mem hfind
      exact ⟨b, hb, by simp [hbx]⟩

/-- Under the UNIQUE constraint, the `IN (from, to)` query returns exactly
two rows iff the two identities differ and both accounts exist. -/
lemma sel_length_two_iff {st : BankState} (hnd : UniqueNumbers st) (src dst : String) :
    (st.accounts.filter (fun a => a.number == src || a.number == dst)).length = 2
      ↔ src ≠ dst ∧ (getBalance st src).isSome ∧ (getBalance st dst).isSome := by
  rw [← List.countP_eq_length_filter]
  by_cases h : src = dst
  · subst h
    have := countP_number_le_one hnd src
    constructor
    · intro h2
      simp only [Bool.or_self] at h2
      omega
    · rintro ⟨hne, -⟩
      exact absurd rfl hne
  · rw [countP_orB st.accounts h]
    have hs := countP_number_le_one hnd src
    have hd := countP_number_le_one hnd dst
    have hps := countP_number_pos_iff st src
    have hpd := countP_number_pos_iff st dst
    constructor
    · intro h2
      exact ⟨h, hps.mp (by omega), hpd.mp (by omega)⟩
    · rintro ⟨-, h1, h2⟩
      have := hps.mpr h1
      have := hpd.mpr h2
      omega

/-! ### How balance updates interact with lookup -/

lemma getAccount_setBalance (st : BankState) (acc acc' : String) (b : ℚ) :
    getAccount (setBalance st acc b) acc' = (getAccount st acc').map
      (fun a => if a.number == acc then { a with balance := b } else a) := by
  simp only [getAccount, setBalance, List.find?_map]
  congr 1
  congr 1
  funext a
  by_cases h : a.number = acc <;> simp [Function.comp, h]

lemma getAccount_adjustBalance (st : BankState) (acc acc' : String) (delta : ℚ) :
    getAccount (adjustBalance st acc delta) acc' = (getAccount st acc').map
      (fun a => if a.number == acc then { a with balance := a.balance + delta } else a) := by
  simp only [getAccount, adjustBalance, List.find?_map]
  congr 1
  congr 1
  funext a
  by_cases h : a.number = acc <;> simp [Function.comp, h]

lemma getBalance_setBalance_self {st : BankState} {acc : String} {cur : ℚ} (b : ℚ)
    (h : getBalance st acc = some cur) :
    getBalance (setBalance st acc b) acc = some b := by
  rw [getBalance_eq_map] at h
  obtain ⟨a, hacc, hbal⟩ := Option.map_eq_some'.mp h
  have hnum := (getAccount_mem hacc).2
  rw [getBalance_eq_map, getAccount_setBalance, hacc]
  simp [hnum]

lemma getBalance_setBalance_ne {st : BankState} {acc acc' : String} (b : ℚ)
    (h : acc' ≠ acc) :
    getBalance (setBalance st acc b) acc' = getBalance st acc' := by
  rw [getBalance_eq_map, getBalance_eq_map, getAccount_setBalance]
  rcases hfind : getAccount st acc' with _ | a
  · rfl
  · have hnum : a.number ≠ acc := by rw [(getAccount_mem hfind).2]; exact h
    simp [hnum]

lemma getBalance_adjustBalance_self {st : BankState} {acc : String} {cur : ℚ} (delta : ℚ)
    (h : getBalance st acc = some cur) :
    getBalance (adjustBalance st acc delta) acc = some (cur + delta) := by
  rw [getBalance_eq_map] at h
  obtain ⟨a, hacc, hbal⟩ := Option.map_eq_some'.mp h
  have hnum := (getAccount_mem hacc).2
  rw [getBalance_eq_map, getAccount_adjustBalance, hacc]
  simp [hnum, hbal]

lemma getBalance_adjustBalance_ne {st : BankState} {acc acc' : String} (delta : ℚ)
    (h : acc' ≠ acc) :
    getBalance (adjustBalance st acc delta) acc' = getBalance st acc' := by
  rw [getBalance_eq_map, getBalance_eq_map, getAccount_adjustBalance]
  rcases hfind : getAccount st acc' with _ | a
  · rfl
  · have hnum : a.number ≠ acc := by rw [(getAccount_mem hfind).2]; exact h
    simp [hnum]

/-! ### Case equations for the engine operations -/

lemma deposit_of_none {st : BankState} {acc : String} (amount : ℚ) (descr : String)
    (h : getBalance st acc = none) :
    deposit st acc amount descr = (false, st) := by
  simp [deposit, h]

lemma deposit_of_some {st : BankState} {acc : String} {cur : ℚ} (amount : ℚ)
    (descr : String) (h : getBalance st acc = some cur) :
    deposit st acc amount descr
      = (true, appendTx (setBalance st acc (cur + amount)) none (some acc)
          TxType.DEPOSIT amount descr) := by
  simp [deposit, h]

lemma withdraw_of_none {st : BankState} {acc : String} (amount : ℚ) (descr : String)
    (h : getBalance st acc = none) :
    withdraw st acc amount descr = (false, st) := by
  simp [withdraw, h]

lemma withdraw_of_insufficient {st : BankState} {acc : String} {cur : ℚ}
    {amount : ℚ} (descr : String) (h : getBalance st acc = some cur)
    (hlt : cur < amount) :
    withdraw st acc amount descr = (false, st) := by
  simp [withdraw, h, hlt]

lemma withdraw_of_sufficient {st : BankState} {acc : String} {cur : ℚ}
    {amount : ℚ} (descr : String) (h : getBalance st acc = some cur)
    (hge : ¬ cur < amount) :
    withdraw st acc amount descr
      = (true, appendTx (setBalance st acc (cur - amount)) (some acc) none
          TxType.WITHDRAWAL amount descr) := by
  simp [withdraw, h, hge]

/-- Every run of `transfer` either fails leaving the state unchanged, or
passes the two-row check and the funds check and commits the debit, the
credit and one `TRANSFER` row. -/
lemma transfer_cases (st : BankState) (src dst : String) (amount : ℚ) (descr : String) :
    transfer st src dst amount descr = (false, st)
    ∨ ∃ srcBal, getBalance st src = some srcBal ∧ ¬ srcBal < amount ∧
        (st.accounts.filter (fun a => a.number == src || a.number == dst)).length = 2 ∧
        transfer st src dst amount descr
          = (true, appendTx (adjustBalance (adjustBalance st src (-amount)) dst amount)
              (some src) (some dst) TxType.TRANSFER amount descr) := by
  by_cases h2 : (st.accounts.filter (fun a => a.number == src || a.number == dst)).length = 2
  · rcases hb : getBalance st src with _ | srcBal
    · left
      simp [transfer, h2, hb]
    · by_cases hlt : srcBal < amount
      · left
        simp [transfer, h2, hb, hlt]
      · right
        exact ⟨srcBal, rfl, hlt, h2, by simp [transfer, h2, hb, hlt]⟩
  · left
    simp [transfer, h2]

lemma transfer_of_length_ne {st : BankState} {src dst : String} (amount : ℚ)
    (descr : String)
    (h : (st.accounts.filter (fun a => a.number == src || a.number == dst)).length ≠ 2) :
    transfer st src dst amount descr = (false, st) := by
  simp [transfer, h]

lemma transfer_of_insufficient {st : BankState} {src dst : String} {srcBal amount : ℚ}
    (descr : String) (hb : getBalance st src = some srcBal) (hlt : srcBal < amount) :
    transfer st src dst amount descr = (false, st) := by
  by_cases h2 : (st.accounts.filter (fun a => a.number == src || a.number == dst)).length = 2
  · simp [transfer, h2, hb, hlt]
  · simp [transfer, h2]

lemma transfer_of_success {st : BankState} {src dst : String} {srcBal amount : ℚ}
    (descr : String)
    (h2 : (st.accounts.filter (fun a => a.number == src || a.number == dst)).length = 2)
    (hb : getBalance st src = some srcBal) (hge : ¬ srcBal < amount) :
    transfer st src dst amount descr
      = (true, appendTx (adjustBalance (adjustBalance st src (-amount)) dst amount)
          (some src) (some dst) TxType.TRANSFER amount descr) := by
  simp [transfer, h2, hb, hge]

/-! ### Conservation machinery -/

lemma countP_number_eq_count (l : List Account) (x : String) :
    l.countP (fun a => a.number == x) = (l.map Account.number).count x := by
  rw [List.count, List.countP_map]
  rfl

lemma countP_number_adjustBalance (st : BankState) (acc : String) (delta : ℚ)
    (x : String) :
    (adjustBalance st acc delta).accounts.countP (fun a => a.number == x)
      = st.accounts.countP (fun a => a.number == x) := by
  rw [countP_number_eq_count, countP_number_eq_count, map_number_adjustBalance]

lemma countP_number_eq_one {st : BankState} {x : String} (hnd : UniqueNumbers st)
    (h : (getBalance st x).isSome) :
    st.accounts.countP (fun a => a.number == x) = 1 := by
  have h1 := countP_number_le_one hnd x
  have h2 := (countP_number_pos_iff st x).mpr h
  omega

lemma totalBalance_appendTx (st : BankState) (src dst : Option String) (ty : TxType)
    (amount : ℚ) (descr : String) :
    totalBalance (appendTx st src dst ty amount descr) = totalBalance st := rfl

lemma sum_balance_adjust (l : List Account) (acc : String) (delta : ℚ) :
    ((l.map (fun a =>
        if a.number == acc then { a with balance := a.balance + delta } else a)).map
      Account.balance).sum
      = (l.map Account.balance).sum + (l.countP (fun a => a.number == acc) : ℚ) * delta := by
  induction l with
  | nil => simp
  | cons a t ih =>
      by_cases h : a.number = acc
      · simp only [List.map_cons, List.sum_cons, List.countP_cons, h, ih]
        simp [h]
        ring
      · simp only [List.map_cons, List.sum_cons, List.countP_cons, ih]
        simp [h]
        ring

lemma totalBalance_adjustBalance (st : BankState) (acc : String) (delta : ℚ) :
    totalBalance (adjustBalance st acc delta)
      = totalBalance st + (st.accounts.countP (fun a => a.number == acc) : ℚ) * delta := by
  simpa [totalBalance, adjustBalance] using sum_balance_adjust st.accounts acc delta

/-- A transfer never changes the sum of all balances, whether it fails
(state unchanged) or succeeds (debit and credit cancel). -/
lemma totalBalance_transfer (st : BankState) (src dst : String) (amount : ℚ)
    (descr : String) (hnd : UniqueNumbers st) :
    totalBalance (transfer st src dst amount descr).2 = totalBalance st := by
  rcases transfer_cases st src dst amount descr with h | ⟨srcBal, hb, hge, h2, h⟩
  · rw [h]
  · rw [h]
    obtain ⟨hne, hsrc, hdst⟩ := (sel_length_two_iff hnd src dst).mp h2
    have hs1 := countP_number_eq_one hnd hsrc
    have hd1 := countP_number_eq_one hnd hdst
    have e1 : totalBalance (appendTx
        (adjustBalance (adjustBalance st src (-amount)) dst amount)
        (some src) (some dst) TxType.TRANSFER amount descr)
        = totalBalance (adjustBalance (adjustBalance st src (-amount)) dst amount) :=
      totalBalance_appendTx _ _ _ _ _ _
    rw [e1, totalBalance_adjustBalance, countP_number_adjustBalance,
      totalBalance_adjustBalance, hs1, hd1]
    ring

/-! ### Preservation of the schema constraint and of non-negativity -/

lemma unique_setBalance {st : BankState} (hnd : UniqueNumbers st) (acc : String)
    (b : ℚ) : UniqueNumbers (setBalance st acc b) := by
  unfold UniqueNumbers
  rw [map_number_setBalance]
  exact hnd

lemma unique_adjustBalance {st : BankState} (hnd : UniqueNumbers st) (acc : String)
    (delta : ℚ) : UniqueNumbers (adjustBalance st acc delta) := by
  unfold UniqueNumbers
  rw [map_number_adjustBalance]
  exact hnd

lemma unique_appendTx {st : BankState} (hnd : UniqueNumbers st) (src dst : Option String)
    (ty : TxType) (amount : ℚ) (descr : String) :
    UniqueNumbers (appendTx st src dst ty amount descr) := hnd

lemma unique_create_account {st : BankState} (hnd : UniqueNumbers st)
    (number holder : String) (initial : ℚ) :
    UniqueNumbers (create_account st number holder initial).2 := by
  by_cases hany : st.accounts.any (fun a => a.number == number)
  · simp [create_account, hany]
    exact hnd
  · have hnotin : number ∉ st.accounts.map Account.number := by
      intro hmem
      obtain ⟨a, ha, hEq⟩ := List.mem_map.mp hmem
      exact hany (List.any_eq_true.mpr ⟨a, ha, by simp [hEq]⟩)
    simp only [create_account, hany, Bool.false_eq_true, if_false]
    unfold UniqueNumbers
    simp only [List.map_append, List.map_cons, List.map_nil]
    rw [List.nodup_append]
    refine ⟨hnd, List.nodup_singleton _, ?_⟩
    intro x hx hx2
    simp only [List.mem_singleton] at hx2
    exact hnotin (hx2 ▸ hx)

lemma nonneg_setBalance {st : BankState} {b : ℚ} (h : NonnegBalances st) (hb : 0 ≤ b)
    (acc : String) : NonnegBalances (setBalance st acc b) := by
  intro x hx
  simp only [setBalance, List.mem_map] at hx
  obtain ⟨a, ha, rfl⟩ := hx
  by_cases hn : a.number = acc
  · simp [hn, hb]
  · simp [hn]
    exact h a ha

lemma nonneg_adjust_credit {st : BankState} {delta : ℚ} (h : NonnegBalances st)
    (hd : 0 ≤ delta) (acc : String) : NonnegBalances (adjustBalance st acc delta) := by
  intro x hx
  simp only [adjustBalance, List.mem_map] at hx
  obtain ⟨a, ha, rfl⟩ := hx
  by_cases hn : a.number = acc
  · have hb0 := h a ha
    simp [hn]
    linarith
  · simp [hn]
    exact h a ha

lemma nonneg_adjust_debit {st : BankState} {src : String} {amount srcBal : ℚ}
    (hnd : UniqueNumbers st) (h : NonnegBalances st)
    (hb : getBalance st src = some srcBal) (hge : amount ≤ srcBal) :
    NonnegBalances (adjustBalance st src (-amount)) := by
  intro x hx
  simp only [adjustBalance, List.mem_map] at hx
  obtain ⟨a, ha, rfl⟩ := hx
  by_cases hn : a.number = src
  · have hbal : a.balance = srcBal := balance_eq_of_mem hnd ha (hn ▸ hb)
    simp [hn, hbal]
    linarith
  · simp [hn]
    exact h a ha

lemma nonneg_appendTx {st : BankState} (h : NonnegBalances st) (src dst : Option String)
    (ty : TxType) (amount : ℚ) (descr : String) :
    NonnegBalances (appendTx st src dst ty amount descr) := h

lemma nonneg_create_account {st : BankState} {initial : ℚ} (h : NonnegBalances st)
    (hi : 0 ≤ initial) (number holder : String) :
    NonnegBalances (create_account st number holder initial).2 := by
  by_cases hany : st.accounts.any (fun a => a.number == number)
  · simpa [create_account, hany] using h
  · simp only [create_account, hany, Bool.false_eq_true, if_false]
    intro a ha
    rcases List.mem_append.mp ha with hmem | hmem
    · exact h a hmem
    · simp only [List.mem_singleton] at hmem
      rw [hmem]
      exact hi

/-! ### Preservation along operation sequences -/

lemma run_cons (st : BankState) (op : Op) (ops : List Op) :
    run st (op :: ops) = run (applyOp st op) ops := rfl

lemma unique_applyOp {st : BankState} (hnd : UniqueNumbers st) :
    ∀ op, UniqueNumbers (applyOp st op)
  | Op.create n h i => unique_create_account hnd n h i
  | Op.dep a amt d => by
      show UniqueNumbers (deposit st a amt d).2
      rcases hb : getBalance st a with _ | cur
      · rw [deposit_of_none amt d hb]
        exact hnd
      · rw [deposit_of_some amt d hb]
        exact unique_appendTx (unique_setBalance hnd a _) _ _ _ _ _
  | Op.wd a amt d => by
      show UniqueNumbers (withdraw st a amt d).2
      rcases hb : getBalance st a with _ | cur
      · rw [withdraw_of_none amt d hb]
        exact hnd
      · by_cases hlt : cur < amt
        · rw [withdraw_of_insufficient d hb hlt]
          exact hnd
        · rw [withdraw_of_sufficient d hb hlt]
          exact unique_appendTx (unique_setBalance hnd a _) _ _ _ _ _
  | Op.xfer s t amt d => by
      show UniqueNumbers (transfer st s t amt d).2
      rcases transfer_cases st s t amt d with h | ⟨sb, hb, hge, h2, h⟩
      · rw [h]
        exact hnd
      · rw [h]
        exact unique_appendTx
          (unique_adjustBalance (unique_adjustBalance hnd s _) t _) _ _ _ _ _

lemma nonneg_applyOp {st : BankState} (hnd : UniqueNumbers st) (h : NonnegBalances st) :
    ∀ op, ValidOp op → NonnegBalances (applyOp st op)
  | Op.create n hh i, hv => nonneg_create_account h hv n hh
  | Op.dep a amt d, hv => by
      show NonnegBalances (deposit st a amt d).2
      rcases hb : getBalance st a with _ | cur
      · rw [deposit_of_none amt d hb]
        exact h
      · rw [deposit_of_some amt d hb]
        refine nonneg_appendTx (nonneg_setBalance h ?_ a) _ _ _ _ _
        obtain ⟨x, hx, -, hxb⟩ := getBalance_some hb
        have hx0 := h x hx
        have hamt : 0 < amt := hv
        rw [hxb] at hx0
        linarith
  | Op.wd a amt d, hv => by
      show NonnegBalances (withdraw st a amt d).2
      rcases hb : getBalance st a with _ | cur
      · rw [withdraw_of_none amt d hb]
        exact h
      · by_cases hlt : cur < amt
        · rw [withdraw_of_insufficient d hb hlt]
          exact h
        · rw [withdraw_of_sufficient d hb hlt]
          refine nonneg_appendTx (nonneg_setBalance h ?_ a) _ _ _ _ _
          push_neg at hlt
          linarith
  | Op.xfer s t amt d, hv => by
      show NonnegBalances (transfer st s t amt d).2
      rcases transfer_cases st s t amt d with heq | ⟨sb, hb, hge, h2, heq⟩
      · rw [heq]
        exact h
      · rw [heq]
        push_neg at hge
        have hamt : 0 < amt := hv
        exact nonneg_appendTx
          (nonneg_adjust_credit (nonneg_adjust_debit hnd h hb hge) (le_of_lt hamt) t)
          _ _ _ _ _

/-- Running any sequence of spec-domain operations from a state satisfying
the schema constraint and non-negativity preserves both. -/
lemma run_preserves {st : BankState} {ops : List Op} (hnd : UniqueNumbers st)
    (h : NonnegBalances st) (hv : ∀ op ∈ ops, ValidOp op) :
    UniqueNumbers (run st ops) ∧ NonnegBalances (run st ops) := by
  induction ops generalizing st with
  | nil => exact ⟨hnd, h⟩
  | cons op t ih =>
      rw [run_cons]
      have hvop : ValidOp op := hv op (List.mem_cons_self op t)
      exact ih (unique_applyOp hnd op) (nonneg_applyOp hnd h op hvop)
        (fun o ho => hv o (List.mem_cons_of_mem _ ho))

/-- Running any sequence of transfers preserves the sum of all balances. -/
lemma totalBalance_run_transfers {st : BankState} {ops : List Op}
    (hnd : UniqueNumbers st) (hx : ∀ op ∈ ops, IsTransferOp op) :
    totalBalance (run st ops) = totalBalance st := by
  induction ops generalizing st with
  | nil => rfl
  | cons op t ih =>
      rw [run_cons]
      have hop : IsTransferOp op := hx op (List.mem_cons_self op t)
      cases op with
      | create n hh i => exact absurd hop id
      | dep a amt d => exact absurd hop id
      | wd a amt d => exact absurd hop id
      | xfer s dd amt d =>
          have h1 : totalBalance (applyOp st (Op.xfer s dd amt d)) = totalBalance st :=
            totalBalance_transfer st s dd amt d hnd
          have h2 : UniqueNumbers (applyOp st (Op.xfer s dd amt d)) :=
            unique_applyOp hnd _
          rw [ih h2 (fun o ho => hx o (List.mem_cons_of_mem _ ho)), h1]

/-! ### Behaviour of the HTTP handlers -/

lemma depositEndpoint_of_none {st : BankState} {acc : String} (amount : ℚ)
    (descr : String) (h : getAccount st acc = none) :
    depositEndpoint st acc amount descr = (Except.error ApiError.accountNotFound, st) := by
  simp [depositEndpoint, h]

lemma depositEndpoint_of_some {st : BankState} {acc : String} {a : Account}
    (amount : ℚ) (descr : String) (h : getAccount st acc = some a) :
    depositEndpoint st acc amount descr
      = (Except.ok (a.balance + amount), (deposit st acc amount descr).2) := by
  have hb : getBalance st acc = some a.balance := by
    rw [getBalance_eq_map, h, Option.map_some']
  have hd := deposit_of_some amount descr hb
  have hb2 : getBalance (appendTx (setBalance st acc (a.balance + amount)) none
      (some acc) TxType.DEPOSIT amount descr) acc = some (a.balance + amount) := by
    rw [getBalance_appendTx]
    exact getBalance_setBalance_self _ hb
  simp [depositEndpoint, h, hd, hb2]

lemma withdrawEndpoint_of_none {st : BankState} {acc : String} (amount : ℚ)
    (descr : String) (h : getAccount st acc = none) :
    withdrawEndpoint st acc amount descr = (Except.error ApiError.accountNotFound, st) := by
  simp [withdrawEndpoint, h]

lemma withdrawEndpoint_of_insufficient {st : BankState} {acc : String} {a : Account}
    {amount : ℚ} (descr : String) (h : getAccount st acc = some a)
    (hlt : a.balance < amount) :
    withdrawEndpoint st acc amount descr
      = (Except.error (ApiError.insufficientFunds a.balance), st) := by
  have hb : getBalance st acc = some a.balance := by
    rw [getBalance_eq_map, h, Option.map_some']
  have hw := withdraw_of_insufficient descr hb hlt
  simp [withdrawEndpoint, h, hw, hlt]

lemma withdrawEndpoint_of_sufficient {st : BankState} {acc : String} {a : Account}
    {amount : ℚ} (descr : String) (h : getAccount st acc = some a)
    (hge : ¬ a.balance < amount) :
    withdrawEndpoint st acc amount descr
      = (Except.ok (a.balance - amount), (withdraw st acc amount descr).2) := by
  have hb : getBalance st acc = some a.balance := by
    rw [getBalance_eq_map, h, Option.map_some']
  have hw := withdraw_of_sufficient descr hb hge
  have hb2 : getBalance (appendTx (setBalance st acc (a.balance - amount)) (some acc)
      none TxType.WITHDRAWAL amount descr) acc = some (a.balance - amount) := by
    rw [getBalance_appendTx]
    exact getBalance_setBalance_self _ hb
  simp [withdrawEndpoint, h, hw, hb2]

lemma transferEndpoint_of_same {st : BankState} {src dst : String} (amount : ℚ)
    (descr : String) (h : src = dst) :
    transferEndpoint st src dst amount descr = (Except.error ApiError.sameAccount, st) := by
  simp [transferEndpoint, h]

lemma transferEndpoint_of_src_missing {st : BankState} {src dst : String} (amount : ℚ)
    (descr : String) (hne : src ≠ dst) (h : getAccount st src = none) :
    transferEndpoint st src dst amount descr
      = (Except.error ApiError.accountNotFound, st) := by
  simp [transferEndpoint, hne, h]

lemma transferEndpoint_of_dst_missing {st : BankState} {src dst : String} {a : Account}
    (amount : ℚ) (descr : String) (hne : src ≠ dst) (h1 : getAccount st src = some a)
    (h2 : getAccount st dst = none) :
    transferEndpoint st src dst amount descr
      = (Except.error ApiError.accountNotFound, st) := by
  simp [transferEndpoint, hne, h1, h2]

lemma transferEndpoint_of_insufficient {st : BankState} {src dst : String}
    {aFrom aTo : Account} {amount : ℚ} (descr : String) (hne : src ≠ dst)
    (h1 : getAccount st src = some aFrom) (h2 : getAccount st dst = some aTo)
    (hlt : aFrom.balance < amount) :
    transferEndpoint st src dst amount descr
      = (Except.error (ApiError.insufficientFunds aFrom.balance), st) := by
  have hb : getBalance st src = some aFrom.balance := by
    rw [getBalance_eq_map, h1, Option.map_some']
  have ht : transfer st src dst amount descr = (false, st) :=
    transfer_of_insufficient descr hb hlt
  simp [transferEndpoint, hne, h1, h2, ht, hlt]

lemma transferEndpoint_of_success {st : BankState} {src dst : String}
    {aFrom aTo : Account} {amount : ℚ} (descr : String) (hnd : UniqueNumbers st)
    (hne : src ≠ dst) (h1 : getAccount st src = some aFrom)
    (h2 : getAccount st dst = some aTo) (hge : ¬ aFrom.balance < amount) :
    transferEndpoint st src dst amount descr
      = (Except.ok (aFrom.balance - amount, aTo.balance + amount),
          (transfer st src dst amount descr).2) := by
  have hb : getBalance st src = some aFrom.balance := by
    rw [getBalance_eq_map, h1, Option.map_some']
  have hbd : getBalance st dst = some aTo.balance := by
    rw [getBalance_eq_map, h2, Option.map_some']
  have hsel : (st.accounts.filter (fun a => a.number == src || a.number == dst)).length = 2 := by
    rw [sel_length_two_iff hnd]
    exact ⟨hne, by simp [hb], by simp [hbd]⟩
  have ht := transfer_of_success descr hsel hb hge
  have hbs : getBalance (appendTx (adjustBalance (adjustBalance st src (-amount)) dst
      amount) (some src) (some dst) TxType.TRANSFER amount descr) src
      = some (aFrom.balance - amount) := by
    rw [getBalance_appendTx, getBalance_adjustBalance_ne amount hne,
      getBalance_adjustBalance_self (-amount) hb]
    rw [← sub_eq_add_neg]
  have hbt : getBalance (appendTx (adjustBalance (adjustBalance st src (-amount)) dst
      amount) (some src) (some dst) TxType.TRANSFER amount descr) dst
      = some (aTo.balance + amount) := by
    rw [getBalance_appendTx]
    refine getBalance_adjustBalance_self amount ?_
    rw [getBalance_adjustBalance_ne (-amount) (Ne.symm hne)]
    exact hbd
  simp [transferEndpoint, hne, h1, h2, ht, hbs, hbt]

/-! ### Successful transfers, observed through lookup -/

lemma transfer_failure_unchanged {st : BankState} {src dst : String} {amount : ℚ}
    {descr : String} (h : (transfer st src dst amount descr).1 = false) :
    (transfer st src dst amount descr).2 = st := by
  rcases transfer_cases st src dst amount descr with heq | ⟨sb, -, -, -, heq⟩
  · rw [heq]
  · rw [heq] at h
    simp at h

lemma transfer_success_balances {st st' : BankState} {src dst : String}
    {amount sb db : ℚ} {descr : String} (hnd : UniqueNumbers st)
    (hs : getBalance st src = some sb) (hd : getBalance st dst = some db)
    (h : transfer st src dst amount descr = (true, st')) :
    src ≠ dst ∧ getBalance st' src = some (sb - amount)
      ∧ getBalance st' dst = some (db + amount)
      ∧ st'.transactions = st.transactions
          ++ [⟨some src, some dst, TxType.TRANSFER, amount, descr, st.nextTs⟩] := by
  rcases transfer_cases st src dst amount descr with heq | ⟨sb', hb', hge, h2, heq⟩
  · rw [heq] at h
    simp at h
  · rw [heq] at h
    have hst' : st' = appendTx (adjustBalance (adjustBalance st src (-amount)) dst amount)
        (some src) (some dst) TxType.TRANSFER amount descr := by
      have := (Prod.ext_iff.mp h).2
      exact this.symm
    have hne : src ≠ dst := ((sel_length_two_iff hnd src dst).mp h2).1
    have hsb : sb' = sb := by
      rw [hs] at hb'
      exact (Option.some_injective _ hb').symm
    subst hst'
    refine ⟨hne, ?_, ?_, ?_⟩
    · rw [getBalance_appendTx, getBalance_adjustBalance_ne amount hne,
        getBalance_adjustBalance_self (-amount) hs, ← sub_eq_add_neg]
    · rw [getBalance_appendTx]
      refine getBalance_adjustBalance_self amount ?_
      rw [getBalance_adjustBalance_ne (-amount) (Ne.symm hne)]
      exact hd
    · rfl

/-! ### The shape of transaction history -/

lemma history_length (st : BankState) (acc : String) (limit : Nat) :
    (get_transaction_history st acc limit).length
      = min limit (st.transactions.filter
          (fun t => t.from_account == some acc || t.to_account == some acc)).length := by
  unfold get_transaction_history
  rw [List.length_take, List.length_mergeSort]

lemma history_sorted (st : BankState) (acc : String) (limit : Nat) :
    (get_transaction_history st acc limit).Pairwise
      (fun a b => b.timestamp ≤ a.timestamp) := by
  unfold get_transaction_history
  refine List.Pairwise.sublist (List.take_sublist _ _) ?_
  have hs := @List.sorted_mergeSort Transaction
    (fun a b => decide (b.timestamp ≤ a.timestamp))
    (fun a b c hab hbc => by
      simp only [decide_eq_true_eq] at hab hbc ⊢
      omega)
    (fun a b => by
      simp only [Bool.or_eq_true, decide_eq_true_eq]
      omega)
    (st.transactions.filter
      (fun t => t.from_account == some acc || t.to_account == some acc))
  refine hs.imp ?_
  intro a b hab
  simpa using hab

lemma history_mem {st : BankState} {acc : String} {limit : Nat} {t : Transaction}
    (h : t ∈ get_transaction_history st acc limit) :
    t ∈ st.transactions ∧ (t.from_account = some acc ∨ t.to_account = some acc) := by
  unfold get_transaction_history at h
  have h1 := List.take_subset _ _ h
  rw [List.mem_mergeSort] at h1
  have h2 := List.mem_filter.mp h1
  refine ⟨h2.1, ?_⟩
  simpa using h2.2

lemma history_perm_of_le {st : BankState} {acc : String} {limit : Nat}
    (h : (st.transactions.filter
        (fun t => t.from_account == some acc || t.to_account == some acc)).length
      ≤ limit) :
    (get_transaction_history st acc limit).Perm
      (st.transactions.filter
        (fun t => t.from_account == some acc || t.to_account == some acc)) := by
  unfold get_transaction_history
  rw [List.take_of_length_le (by rw [List.length_mergeSort]; exact h)]
  exact List.mergeSort_perm _ _

lemma history_nil_of_no_match {st : BankState} {acc : String} (limit : Nat)
    (h : ∀ t ∈ st.transactions, t.from_account ≠ some acc ∧ t.to_account ≠ some acc) :
    get_transaction_history st acc limit = [] := by
  unfold get_transaction_history
  have hf : st.transactions.filter
      (fun t => t.from_account == some acc || t.to_account == some acc) = [] := by
    rw [List.filter_eq_nil_iff]
    intro t ht
    have := h t ht
    simp [this.1, this.2]
  rw [hf]
  simp

/-! ### The claims -/

/-- C1: starting from any store that satisfies the schema's UNIQUE
constraint and has all balances non-negative, running any sequence of core
operations within the spec's argument domains (amounts positive, initial
balances non-negative) keeps every balance non-negative; and a withdraw or
transfer whose amount exceeds the current balance fails with
`InsufficientFunds` carrying that balance and leaves the store unchanged. -/
theorem C1_no_overdraft (st : BankState) (ops : List Op)
    (hnd : UniqueNumbers st) (h0 : NonnegBalances st)
    (hv : ∀ op ∈ ops, ValidOp op) :
    NonnegBalances (run st ops)
    ∧ (∀ acc a amount descr, getAccount st acc = some a → a.balance < amount →
        withdrawEndpoint st acc amount descr
          = (Except.error (ApiError.insufficientFunds a.balance), st))
    ∧ (∀ src dst aFrom aTo amount descr, src ≠ dst →
        getAccount st src = some aFrom → getAccount st dst = some aTo →
        aFrom.balance < amount →
        transferEndpoint st src dst amount descr
          = (Except.error (ApiError.insufficientFunds aFrom.balance), st)) := by
  refine ⟨(run_preserves hnd h0 hv).2, ?_, ?_⟩
  · intro acc a amount descr h hlt
    exact withdrawEndpoint_of_insufficient descr h hlt
  · intro src dst aFrom aTo amount descr hne h1 h2 hlt
    exact transferEndpoint_of_insufficient descr hne h1 h2 hlt

/-- C2: transfers conserve money: any sequence of transfer operations
leaves the sum of all balances unchanged, and a successful transfer debits
the source by exactly the amount it credits to the destination. -/
theorem C2_conservation (st : BankState) (ops : List Op)
    (hnd : UniqueNumbers st) (hx : ∀ op ∈ ops, IsTransferOp op) :
    totalBalance (run st ops) = totalBalance st
    ∧ (∀ src dst amount descr sb db st',
        getBalance st src = some sb → getBalance st dst = some db →
        transfer st src dst amount descr = (true, st') →
        getBalance st' src = some (sb - amount)
          ∧ getBalance st' dst = some (db + amount)) := by
  refine ⟨totalBalance_run_transfers hnd hx, ?_⟩
  intro src dst amount descr sb db st' hs hd h
  have hres := transfer_success_balances hnd hs hd h
  exact ⟨hres.2.1, hres.2.2.1⟩

/-- C3: a transfer fails with `AccountNotFound` when either account is
missing and with `InsufficientFunds` (carrying the source balance) when the
source balance is below the amount; every engine failure returns the store
— balances and transaction log — unchanged. -/
theorem C3_transfer_failure_atomic (st : BankState) (src dst : String)
    (amount : ℚ) (descr : String) :
    (src ≠ dst → getAccount st src = none →
      transferEndpoint st src dst amount descr
        = (Except.error ApiError.accountNotFound, st))
    ∧ (∀ a, src ≠ dst → getAccount st src = some a → getAccount st dst = none →
        transferEndpoint st src dst amount descr
          = (Except.error ApiError.accountNotFound, st))
    ∧ (∀ aFrom aTo, src ≠ dst → getAccount st src = some aFrom →
        getAccount st dst = some aTo → aFrom.balance < amount →
        transferEndpoint st src dst amount descr
          = (Except.error (ApiError.insufficientFunds aFrom.balance), st))
    ∧ ((transfer st src dst amount descr).1 = false →
        (transfer st src dst amount descr).2 = st) := by
  refine ⟨?_, ?_, ?_, ?_⟩
  · intro hne h
    exact transferEndpoint_of_src_missing amount descr hne h
  · intro a hne h1 h2
    exact transferEndpoint_of_dst_missing amount descr hne h1 h2
  · intro aFrom aTo hne h1 h2 hlt
    exact transferEndpoint_of_insufficient descr hne h1 h2 hlt
  · exact transfer_failure_unchanged

/-- C4: a successful transfer debits the source by the amount, credits the
destination by the same amount, returns both new balances, and appends
exactly one `TRANSFER` row whose `from_account` and `to_account` are both
populated and distinct. -/
theorem C4_transfer_success (st : BankState) (src dst : String) (amount : ℚ)
    (descr : String) (aFrom aTo : Account) (hnd : UniqueNumbers st)
    (hne : src ≠ dst) (h1 : getAccount st src = some aFrom)
    (h2 : getAccount st dst = some aTo) (hge : ¬ aFrom.balance < amount) :
    transferEndpoint st src dst amount descr
      = (Except.ok (aFrom.balance - amount, aTo.balance + amount),
          (transfer st src dst amount descr).2)
    ∧ getBalance (transfer st src dst amount descr).2 src
        = some (aFrom.balance - amount)
    ∧ getBalance (transfer st src dst amount descr).2 dst
        = some (aTo.balance + amount)
    ∧ (transfer st src dst amount descr).2.transactions
        = st.transactions
          ++ [⟨some src, some dst, TxType.TRANSFER, amount, descr, st.nextTs⟩]
    ∧ some src ≠ some dst := by
  have hb : getBalance st src = some aFrom.balance := by
    rw [getBalance_eq_map, h1, Option.map_some']
  have hbd : getBalance st dst = some aTo.balance := by
    rw [getBalance_eq_map, h2, Option.map_some']
  have hsel : (st.accounts.filter
      (fun a => a.number == src || a.number == dst)).length = 2 := by
    rw [sel_length_two_iff hnd]
    exact ⟨hne, by simp [hb], by simp [hbd]⟩
  have ht := transfer_of_success descr hsel hb hge
  have hsucc : transfer st src dst amount descr
      = (true, (transfer st src dst amount descr).2) := by
    rw [ht]
  have hres := transfer_success_balances hnd hb hbd hsucc
  refine ⟨transferEndpoint_of_success descr hnd hne h1 h2 hge, hres.2.1, hres.2.2.1,
    hres.2.2.2, ?_⟩
  simpa using hne

/-- C5: on an existing account, withdraw fails with `InsufficientFunds`
(carrying the current balance) exactly when the balance is below the
amount; otherwise it succeeds with new balance `current - amount` — so
withdrawing the full balance leaves 0 — and appends one `WITHDRAWAL` row
with `from_account` set to the account. -/
theorem C5_withdraw (st : BankState) (acc : String) (amount : ℚ) (descr : String)
    (a : Account) (h : getAccount st acc = some a) :
    (a.balance < amount →
      withdrawEndpoint st acc amount descr
        = (Except.error (ApiError.insufficientFunds a.balance), st))
    ∧ (¬ a.balance < amount →
      withdrawEndpoint st acc amount descr
        = (Except.ok (a.balance - amount), (withdraw st acc amount descr).2)
      ∧ getBalance (withdraw st acc amount descr).2 acc = some (a.balance - amount)
      ∧ (withdraw st acc amount descr).2.transactions
          = st.transactions
            ++ [⟨some acc, none, TxType.WITHDRAWAL, amount, descr, st.nextTs⟩])
    ∧ (amount = a.balance →
      getBalance (withdraw st acc amount descr).2 acc = some 0) := by
  have hb : getBalance st acc = some a.balance := by
    rw [getBalance_eq_map, h, Option.map_some']
  refine ⟨?_, ?_, ?_⟩
  · intro hlt
    exact withdrawEndpoint_of_insufficient descr h hlt
  · intro hge
    have hw := withdraw_of_sufficient descr hb hge
    refine ⟨withdrawEndpoint_of_sufficient descr h hge, ?_, ?_⟩
    · rw [hw, getBalance_appendTx]
      exact getBalance_setBalance_self _ hb
    · rw [hw]
      rfl
  · intro hEq
    have hge : ¬ a.balance < amount := by rw [hEq]; exact lt_irrefl _
    have hw := withdraw_of_sufficient descr hb hge
    rw [hw, getBalance_appendTx, getBalance_setBalance_self _ hb, hEq, sub_self]

/-- C6: deposit fails with `AccountNotFound`, engine and store unchanged,
when the account does not exist; otherwise it succeeds in one step whose
resulting store has balance `current + amount` and exactly one appended
`DEPOSIT` row with `to_account` set and `from_account` absent. -/
theorem C6_deposit (st : BankState) (acc : String) (amount : ℚ) (descr : String) :
    (getAccount st acc = none →
      deposit st acc amount descr = (false, st)
      ∧ depositEndpoint st acc amount descr
          = (Except.error ApiError.accountNotFound, st))
    ∧ (∀ a, getAccount st acc = some a →
      depositEndpoint st acc amount descr
        = (Except.ok (a.balance + amount), (deposit st acc amount descr).2)
      ∧ getBalance (deposit st acc amount descr).2 acc = some (a.balance + amount)
      ∧ (deposit st acc amount descr).2.transactions
          = st.transactions
            ++ [⟨none, some acc, TxType.DEPOSIT, amount, descr, st.nextTs⟩]) := by
  refine ⟨?_, ?_⟩
  · intro h
    have hb : getBalance st acc = none := by
      rw [getBalance_eq_map, h, Option.map_none']
    exact ⟨deposit_of_none amount descr hb, depositEndpoint_of_none amount descr h⟩
  · intro a h
    have hb : getBalance st acc = some a.balance := by
      rw [getBalance_eq_map, h, Option.map_some']
    have hd := deposit_of_some amount descr hb
    refine ⟨depositEndpoint_of_some amount descr h, ?_, ?_⟩
    · rw [hd, getBalance_appendTx]
      exact getBalance_setBalance_self _ hb
    · rw [hd]
      rfl

/-- C7: transaction history returns only transactions in which the account
appears as `from_account` or `to_account`, sorted by timestamp descending,
with exactly `min limit total` entries — all matching entries, as a
permutation, when the limit covers them — and the empty list when nothing
matches, unknown accounts included. -/
theorem C7_history (st : BankState) (acc : String) (limit : Nat) :
    (get_transaction_history st acc limit).length
      = min limit (st.transactions.filter
          (fun t => t.from_account == some acc || t.to_account == some acc)).length
    ∧ (get_transaction_history st acc limit).Pairwise
        (fun a b => b.timestamp ≤ a.timestamp)
    ∧ (∀ t ∈ get_transaction_history st acc limit,
        t ∈ st.transactions ∧ (t.from_account = some acc ∨ t.to_account = some acc))
    ∧ ((st.transactions.filter
          (fun t => t.from_account == some acc || t.to_account == some acc)).length
        ≤ limit →
        (get_transaction_history st acc limit).Perm
          (st.transactions.filter
            (fun t => t.from_account == some acc || t.to_account == some acc)))
    ∧ ((∀ t ∈ st.transactions, t.from_account ≠ some acc ∧ t.to_account ≠ some acc) →
        get_transaction_history st acc limit = []) := by
  exact ⟨history_length st acc limit, history_sorted st acc limit,
    fun t ht => history_mem ht, fun h => history_perm_of_le h,
    fun h => history_nil_of_no_match limit h⟩

/-- C8: the engine itself rejects a transfer whose source equals its
destination: under the schema's UNIQUE constraint the `IN (from, to)` query
returns at most one row, the two-row check fails, and the operation
returns failure with the store — balance and transaction log — unchanged. -/
theorem C8_same_account_rejected (st : BankState) (acc : String) (amount : ℚ)
    (descr : String) (hnd : UniqueNumbers st) :
    transfer st acc acc amount descr = (false, st) := by
  apply transfer_of_length_ne
  intro h2
  exact ((sel_length_two_iff hnd acc acc).mp h2).1 rfl

/-- C9: every engine-detected error surfaces as a typed outcome with the
store unchanged, never a silent no-op: a missing account yields
`AccountNotFound`; insufficient funds on withdraw and transfer yield
`InsufficientFunds` carrying the account's current balance; and the two
outcomes are distinguishable. -/
theorem C9_typed_outcomes :
    (∀ st acc amount descr, getAccount st acc = none →
      withdrawEndpoint st acc amount descr
        = (Except.error ApiError.accountNotFound, st))
    ∧ (∀ st acc amount descr, getAccount st acc = none →
      depositEndpoint st acc amount descr
        = (Except.error ApiError.accountNotFound, st))
    ∧ (∀ st acc amount descr (a : Account), getAccount st acc = some a →
      a.balance < amount →
      withdrawEndpoint st acc amount descr
        = (Except.error (ApiError.insufficientFunds a.balance), st))
    ∧ (∀ st src dst amount descr (aFrom aTo : Account), src ≠ dst →
      getAccount st src = some aFrom → getAccount st dst = some aTo →
      aFrom.balance < amount →
      transferEndpoint st src dst amount descr
        = (Except.error (ApiError.insufficientFunds aFrom.balance), st))
    ∧ (∀ b : ℚ, ApiError.insufficientFunds b ≠ ApiError.accountNotFound) := by
  refine ⟨?_, ?_, ?_, ?_, ?_⟩
  · intro st acc amount descr h
    exact withdrawEndpoint_of_none amount descr h
  · intro st acc amount descr h
    exact depositEndpoint_of_none amount descr h
  · intro st acc amount descr a h hlt
    exact withdrawEndpoint_of_insufficient descr h hlt
  · intro st src dst amount descr aFrom aTo hne h1 h2 hlt
    exact transferEndpoint_of_insufficient descr hne h1 h2 hlt
  · intro b hEq
    cases hEq

/-- C10: `BankSystem.deposit` itself enforces no positivity constraint on
the amount: on any existing account it succeeds for every amount, zero and
negative included, and writes `current + amount` — so a negative deposit
can push a balance below zero. -/
theorem C10_deposit_unchecked (st : BankState) (acc : String) (amount : ℚ)
    (descr : String) (a : Account) (h : getAccount st acc = some a) :
    (deposit st acc amount descr).1 = true
    ∧ getBalance (deposit st acc amount descr).2 acc = some (a.balance + amount) := by
  have hb : getBalance st acc = some a.balance := by
    rw [getBalance_eq_map, h, Option.map_some']
  have hd := deposit_of_some amount descr hb
  constructor
  · rw [hd]
  · rw [hd, getBalance_appendTx]
    exact getBalance_setBalance_self _ hb

/-! ### Concrete facts used to instantiate the claims -/

lemma demoState_unique : UniqueNumbers demoState := by
  unfold UniqueNumbers demoState
  decide

lemma demoState_nonneg : NonnegBalances demoState := by
  intro a ha
  simp [demoState] at ha
  rcases ha with rfl | rfl <;> norm_num

lemma getAccount_demo1 : getAccount demoState "ACC001" = some ⟨"ACC001", "Alice", 1000⟩ := by
  simp [getAccount, demoState, List.find?]

lemma getAccount_demo2 : getAccount demoState "ACC002" = some ⟨"ACC002", "Bob", 500⟩ := by
  simp [getAccount, demoState, List.find?]

lemma getAccount_demo_missing : getAccount demoState "MISSING" = none := by
  simp [getAccount, demoState, List.find?]

/-- C1 instantiated: a valid operation sequence from the demo store keeps
balances non-negative, and withdrawing 2000.00 from `ACC001` (balance
1000.00) fails with `InsufficientFunds 1000` leaving the store unchanged. -/
theorem C1_no_overdraft_witness :
    NonnegBalances (run demoState
      [Op.dep "ACC001" 500 "d", Op.xfer "ACC001" "ACC002" 300 "t",
        Op.wd "ACC002" 200 "w"])
    ∧ withdrawEndpoint demoState "ACC001" 2000 "w"
        = (Except.error (ApiError.insufficientFunds 1000), demoState) := by
  have h := C1_no_overdraft demoState
    [Op.dep "ACC001" 500 "d", Op.xfer "ACC001" "ACC002" 300 "t",
      Op.wd "ACC002" 200 "w"]
    demoState_unique demoState_nonneg
    (by
      intro op hop
      simp at hop
      rcases hop with rfl | rfl | rfl <;> norm_num [ValidOp])
  refine ⟨h.1, ?_⟩
  have h2 := h.2.1 "ACC001" ⟨"ACC001", "Alice", 1000⟩ 2000 "w" getAccount_demo1
    (by norm_num)
  simpa using h2

/-- C2 instantiated: two transfers leave the demo store's total unchanged,
and the 300.00 transfer from `ACC001` (1000.00) to `ACC002` (500.00)
produces balances 700.00 and 800.00. -/
theorem C2_conservation_witness :
    totalBalance (run demoState
      [Op.xfer "ACC001" "ACC002" 300 "t", Op.xfer "ACC002" "ACC001" 50 "t"])
      = totalBalance demoState
    ∧ getBalance (transfer demoState "ACC001" "ACC002" 300 "t").2 "ACC001" = some 700
    ∧ getBalance (transfer demoState "ACC001" "ACC002" 300 "t").2 "ACC002" = some 800 := by
  have h := C2_conservation demoState
    [Op.xfer "ACC001" "ACC002" 300 "t", Op.xfer "ACC002" "ACC001" 50 "t"]
    demoState_unique
    (by
      intro op hop
      simp at hop
      rcases hop with rfl | rfl <;> trivial)
  have hfst : (transfer demoState "ACC001" "ACC002" 300 "t").1 = true := by
    simp [transfer, demoState, List.filter, getBalance, getAccount, List.find?]
    norm_num
  have hsucc : transfer demoState "ACC001" "ACC002" 300 "t"
      = (true, (transfer demoState "ACC001" "ACC002" 300 "t").2) :=
    Prod.ext_iff.mpr ⟨hfst, rfl⟩
  have h2 := h.2 "ACC001" "ACC002" 300 "t" 1000 500
    (transfer demoState "ACC001" "ACC002" 300 "t").2
    (by rw [getBalance_eq_map, getAccount_demo1, Option.map_some'])
    (by rw [getBalance_eq_map, getAccount_demo2, Option.map_some'])
    hsucc
  refine ⟨h.1, ?_, ?_⟩
  · have := h2.1
    norm_num at this
    exact this
  · have := h2.2
    norm_num at this
    exact this

/-- C3 instantiated: a transfer to a missing account 404s with the store
unchanged; a transfer of 2000.00 from `ACC001` (1000.00) fails with
`InsufficientFunds 1000` with the store unchanged; and the engine's failed
transfer changes nothing. -/
theorem C3_transfer_failure_witness :
    transferEndpoint demoState "ACC001" "MISSING" 10 "t"
      = (Except.error ApiError.accountNotFound, demoState)
    ∧ transferEndpoint demoState "ACC001" "ACC002" 2000 "t"
      = (Except.error (ApiError.insufficientFunds 1000), demoState)
    ∧ (transfer demoState "ACC001" "MISSING" 10 "t").2 = demoState := by
  have t1 := C3_transfer_failure_atomic demoState "ACC001" "MISSING" 10 "t"
  have t2 := C3_transfer_failure_atomic demoState "ACC001" "ACC002" 2000 "t"
  refine ⟨?_, ?_, ?_⟩
  · exact t1.2.1 ⟨"ACC001", "Alice", 1000⟩ (by decide) getAccount_demo1
      getAccount_demo_missing
  · have := t2.2.2.1 ⟨"ACC001", "Alice", 1000⟩ ⟨"ACC002", "Bob", 500⟩ (by decide)
      getAccount_demo1 getAccount_demo2 (by norm_num)
    simpa using this
  · refine t1.2.2.2 ?_
    simp [transfer, demoState, List.filter]

/-- C4 instantiated: transferring 300.00 from `ACC001` (1000.00) to
`ACC002` (500.00) returns (700.00, 800.00) and appends exactly one
`TRANSFER` row with both identities populated and distinct. -/
theorem C4_transfer_success_witness :
    transferEndpoint demoState "ACC001" "ACC002" 300 "Transfer"
      = (Except.ok (700, 800), (transfer demoState "ACC001" "ACC002" 300 "Transfer").2)
    ∧ (transfer demoState "ACC001" "ACC002" 300 "Transfer").2.transactions
      = [⟨some "ACC001", some "ACC002", TxType.TRANSFER, 300, "Transfer", 0⟩]
    ∧ some "ACC001" ≠ some "ACC002" := by
  have h := C4_transfer_success demoState "ACC001" "ACC002" 300 "Transfer"
    ⟨"ACC001", "Alice", 1000⟩ ⟨"ACC002", "Bob", 500⟩ demoState_unique (by decide)
    getAccount_demo1 getAccount_demo2 (by norm_num)
  refine ⟨?_, ?_, h.2.2.2.2⟩
  · have := h.1
    norm_num at this
    exact this
  · have := h.2.2.2.1
    simpa [demoState] using this

/-- C5 instantiated: withdrawing 600.00 from `ACC002` (500.00) fails with
`InsufficientFunds 500`; withdrawing the full 1000.00 from `ACC001` leaves
balance 0.00 and appends one `WITHDRAWAL` row naming the account as
source. -/
theorem C5_withdraw_witness :
    withdrawEndpoint demoState "ACC002" 600 "w"
      = (Except.error (ApiError.insufficientFunds 500), demoState)
    ∧ getBalance (withdraw demoState "ACC001" 1000 "w").2 "ACC001" = some 0
    ∧ (withdraw demoState "ACC001" 1000 "w").2.transactions
      = [⟨some "ACC001", none, TxType.WITHDRAWAL, 1000, "w", 0⟩] := by
  have h1 := C5_withdraw demoState "ACC002" 600 "w" ⟨"ACC002", "Bob", 500⟩
    getAccount_demo2
  have h2 := C5_withdraw demoState "ACC001" 1000 "w" ⟨"ACC001", "Alice", 1000⟩
    getAccount_demo1
  refine ⟨?_, ?_, ?_⟩
  · have := h1.1 (by norm_num)
    simpa using this
  · exact h2.2.2 (by norm_num)
  · have := (h2.2.1 (by norm_num)).2.2
    simpa [demoState] using this

/-- C6 instantiated: depositing into a missing account 404s with the store
unchanged; depositing 500.00 into `ACC001` (1000.00) yields 1500.00 and
appends one `DEPOSIT` row with `to_account` set and `from_account`
absent. -/
theorem C6_deposit_witness :
    depositEndpoint demoState "MISSING" 5 "d"
      = (Except.error ApiError.accountNotFound, demoState)
    ∧ getBalance (deposit demoState "ACC001" 500 "d").2 "ACC001" = some 1500
    ∧ (deposit demoState "ACC001" 500 "d").2.transactions
      = [⟨none, some "ACC001", TxType.DEPOSIT, 500, "d", 0⟩] := by
  have h1 := C6_deposit demoState "MISSING" 5 "d"
  have h2 := C6_deposit demoState "ACC001" 500 "d"
  refine ⟨(h1.1 getAccount_demo_missing).2, ?_, ?_⟩
  · have := (h2.2 ⟨"ACC001", "Alice", 1000⟩ getAccount_demo1).2.1
    norm_num at this
    exact this
  · have := (h2.2 ⟨"ACC001", "Alice", 1000⟩ getAccount_demo1).2.2
    simpa [demoState] using this

/-- C7 instantiated on a three-row log: `ACC001` matches two rows, so a
limit of 10 returns exactly those two, sorted with the newest first; an
identity matching nothing gets the empty list, not an error. -/
theorem C7_history_witness :
    (get_transaction_history demoLog "ACC001" 10).length = 2
    ∧ (get_transaction_history demoLog "ACC001" 10).Pairwise
        (fun a b => b.timestamp ≤ a.timestamp)
    ∧ (get_transaction_history demoLog "ACC001" 10).Perm
        (demoLog.transactions.filter
          (fun t => t.from_account == some "ACC001" || t.to_account == some "ACC001"))
    ∧ get_transaction_history demoLog "NOBODY" 10 = [] := by
  have h := C7_history demoLog "ACC001" 10
  have h2 := C7_history demoLog "NOBODY" 10
  refine ⟨?_, h.2.1, h.2.2.2.1 (by decide), h2.2.2.2.2 (by decide)⟩
  rw [h.1]
  decide

/-- C8 instantiated: a 100.00 transfer from `ACC001` to itself is rejected
by the engine, with no transaction recorded and the balance unchanged
(the whole store is returned as it was). -/
theorem C8_same_account_witness :
    transfer demoState "ACC001" "ACC001" 100 "t" = (false, demoState) :=
  C8_same_account_rejected demoState "ACC001" 100 "t" demoState_unique

/-- C9 instantiated: a withdraw on a missing account 404s; a 600.00
withdraw from `ACC002` (500.00) and a 600.00 transfer out of `ACC002` both
fail with `InsufficientFunds 500`; and that outcome differs from
`AccountNotFound`. -/
theorem C9_typed_outcomes_witness :
    withdrawEndpoint demoState "MISSING" 7 "w"
      = (Except.error ApiError.accountNotFound, demoState)
    ∧ withdrawEndpoint demoState "ACC002" 650 "w"
      = (Except.error (ApiError.insufficientFunds 500), demoState)
    ∧ transferEndpoint demoState "ACC002" "ACC001" 650 "t"
      = (Except.error (ApiError.insufficientFunds 500), demoState)
    ∧ ApiError.insufficientFunds 500 ≠ ApiError.accountNotFound := by
  have h := C9_typed_outcomes
  refine ⟨h.1 demoState "MISSING" 7 "w" getAccount_demo_missing, ?_, ?_, h.2.2.2.2 500⟩
  · have := h.2.2.1 demoState "ACC002" 650 "w" ⟨"ACC002", "Bob", 500⟩
      getAccount_demo2 (by norm_num)
    simpa using this
  · have := h.2.2.2.1 demoState "ACC002" "ACC001" 650 "t" ⟨"ACC002", "Bob", 500⟩
      ⟨"ACC001", "Alice", 1000⟩ (by decide) getAccount_demo2 getAccount_demo1
      (by norm_num)
    simpa using this

/-- C10 instantiated: depositing -1500.00 into `ACC001` (balance 1000.00)
succeeds and leaves the balance at -500.00, which is below zero. -/
theorem C10_deposit_unchecked_witness :
    (deposit demoState "ACC001" (-1500) "d").1 = true
    ∧ getBalance (deposit demoState "ACC001" (-1500) "d").2 "ACC001" = some (-500)
    ∧ (-500 : ℚ) < 0 := by
  have h := C10_deposit_unchecked demoState "ACC001" (-1500) "d"
    ⟨"ACC001", "Alice", 1000⟩ getAccount_demo1
  refine ⟨h.1, ?_, by norm_num⟩
  have := h.2
  norm_num at this
  exact this
